import Mathlib

/-!
Verification of the flux daemon core against its specification.

This file gives a shallow embedding, in Lean, of the parts of the Go
source that the checked claims are about: the deployment status
aggregation (`Deployment.Status`), the per-app deployment lock
(`DeploymentLock`), the app registry (`AppManager.AddApp` and
`AppManager.Init`), the tar staging step (`FluxServer.UploadAppCode`),
the reverse proxy's in-flight counter (`Proxy.ServeHTTP`), the catalog
effect of a container upgrade (`Container.Upgrade`), the health gate
(`WaitForDockerContainer`), the upgrade pipeline
(`Deployment.Upgrade`) and the background drain
(`DeploymentProxy.GracefulShutdown`).  Pure functions are translated
directly; stateful code is translated to explicit state passing, and
the upgrade pipeline is translated to the sequence of externally
visible events it performs, so that temporal claims become statements
about positions in that event list.
-/

deriving instance DecidableEq for Except

namespace Flux

/-! ## Docker runtime statuses

`Container.Status` returns `containerJSON.State.Status`, one of the
docker container states.  The empty string is not among them. -/

inductive DockerStatus where
  | created
  | running
  | paused
  | restarting
  | removing
  | exited
  | dead
  deriving DecidableEq, Repr

def DockerStatus.str : DockerStatus → String
  | .created => "created"
  | .running => "running"
  | .paused => "paused"
  | .restarting => "restarting"
  | .removing => "removing"
  | .exited => "exited"
  | .dead => "dead"

/-! ## `Deployment.Status` (src/server/deployment.go, lines 551-584)

The Go code folds over `d.Containers`, keeping the last seen status in
a `string` initialised to `""`; a mismatch with a previously seen
status is the error `malformed deployment`.  A `nil` container slice
is an error; the final status string is mapped through the
`running / exited / default` switch.  We model the container list as
`Option (List DockerStatus)` (`none` = nil slice, each element the
status `container.Status` reports) since only the statuses matter. -/

def statusFold : String → List DockerStatus → Except String String
  | acc, [] => .ok acc
  | acc, s :: rest =>
    if acc ≠ "" ∧ acc ≠ s.str then .error "malformed deployment"
    else statusFold s.str rest

def statusSwitch (st : String) : String :=
  if st = "running" then "running"
  else if st = "exited" then "stopped"
  else "pending"

def deploymentStatus : Option (List DockerStatus) → Except String String
  | none => .error "containers are nil"
  | some cs => (statusFold "" cs).map statusSwitch

/-! ## `DeploymentLock` (src/server/container.go, lines 250-292) and the
deploy handler's admission step (lines 332-339)

The lock is a mutex-guarded map from app name to the `cancel` function
of a context derived from the request context.  We model contexts as
tagged values, `context.WithCancel parent` as `childCtx parent`, and
the map as an association list. -/

structure Ctx where
  id : Nat
  deriving DecidableEq, Repr

/-- The child context derived from `parent` by `context.WithCancel`. -/
def childCtx (parent : Ctx) : Ctx := ⟨parent.id + 1⟩

/-- A stored cancel function; it cancels the recorded derived context. -/
structure CancelFunc where
  cancels : Ctx
  deriving DecidableEq, Repr

structure DeploymentLock where
  deployed : List (String × CancelFunc)
  deriving DecidableEq, Repr

/-- Model of `DeploymentLock.StartDeployment`: error if the name is present,
otherwise derive a cancellable child context, store its cancel
function under the name, and return the child context. -/
def DeploymentLock.startDeployment (dt : DeploymentLock) (appName : String)
    (parent : Ctx) : Except String (Ctx × DeploymentLock) :=
  if (dt.deployed.lookup appName).isSome then
    .error ("app " ++ appName ++ " is already being deployed")
  else
    .ok (childCtx parent, ⟨(appName, ⟨childCtx parent⟩) :: dt.deployed⟩)

inductive AdmitResult where
  | conflict (httpStatus : Nat)
  | admitted (child : Ctx)
  deriving DecidableEq, Repr

/-- The admission step of `DeployHandler`: on a `StartDeployment` error
it answers `http.StatusConflict` (409) and returns at once (the
request is dropped, not queued); otherwise the pipeline proceeds under
the child context. -/
def deployAdmit (dt : DeploymentLock) (appName : String) (parent : Ctx) :
    AdmitResult × DeploymentLock :=
  match dt.startDeployment appName parent with
  | .error _ => (.conflict 409, dt)
  | .ok (ctx, dt') => (.admitted ctx, dt')

/-! ## `AppManager.AddApp` (src/server/app.go, lines 138-144)

`AddApp` panics (`"nil containers"`) when the app's deployment has a
nil container slice, a nil head, or zero containers, and only
otherwise stores the app in the registry map.  We model the panic as
`none` and the registry as an association list. -/

structure AppModel where
  containers : Option (List Nat)
  head : Option Nat
  deriving DecidableEq, Repr

def sliceLen : Option (List Nat) → Nat
  | none => 0
  | some l => l.length

def addApp (reg : List (String × AppModel)) (name : String)
    (app : AppModel) : Option (List (String × AppModel)) :=
  if app.containers = none ∨ app.head = none ∨ sliceLen app.containers = 0 then
    none
  else
    some ((name, app) :: reg)

/-! ## `AppManager.Init` (src/server/app.go, lines 186-251)

Per app, `Init` scans the deployment's container rows; a second
`head=true` row hits `logger.Fatal("Several containers are marked as
head")`, and a missing head hits `logger.Fatal("head container is
nil!")`.  After registering the app it queries `deployment.Status`; on
an error it `continue`s, and it builds the proxy and calls
`Flux.proxy.AddDeployment` only when the status is `"running"`. -/

structure ContainerRow where
  id : Nat
  cid : String
  head : Bool
  deriving DecidableEq, Repr

/-- The head-identification loop of `Init`: `acc` is the
`headContainer` local; a second head is fatal. -/
def scanHeads : List ContainerRow → Option ContainerRow →
    Except String (Option ContainerRow)
  | [], acc => .ok acc
  | c :: rest, acc =>
    if c.head then
      match acc with
      | some _ => .error "Several containers are marked as head"
      | none => scanHeads rest (some c)
    else scanHeads rest acc

inductive InitOutcome where
  | fatal (msg : String)
  | loaded (registered : Bool)
  deriving DecidableEq, Repr

/-- One iteration of `Init`'s app loop: reconstruct the deployment from
its container rows and decide whether its proxy is registered with the
router, given the result of the `deployment.Status` query. -/
def initApp (containers : List ContainerRow)
    (status : Except String String) : InitOutcome :=
  match scanHeads containers none with
  | .error msg => .fatal msg
  | .ok none => .fatal "head container is nil!"
  | .ok (some _) =>
    match status with
    | .error _ => .loaded false
    | .ok s => if s ≠ "running" then .loaded false else .loaded true

/-! ## `FluxServer.UploadAppCode` (src/server/server.go, lines 141-213)

For each tar entry the code computes
`path := filepath.Join(projectPath, header.Name)` and writes there
(`MkdirAll` for `TypeDir`, `Create`/`Copy` for `TypeReg`; other entry
types fall through the switch and are skipped).  There is no check of
`header.Name` at all.  We model absolute paths as their component
lists from the filesystem root and `filepath.Join`'s lexical cleaning
(`.` and empty components dropped, `..` popping one component,
clamped at the root) over them. -/

def splitSlashAux : List Char → List Char → List String
  | [], cur => [String.mk cur.reverse]
  | c :: rest, cur =>
    if c = '/' then String.mk cur.reverse :: splitSlashAux rest []
    else splitSlashAux rest (c :: cur)

/-- Split a path string on `/` (the component view Go's `filepath.Clean`
walks). -/
def splitSlash (s : String) : List String := splitSlashAux s.data []

def cleanInto : List String → List String → List String
  | acc, [] => acc
  | acc, c :: rest =>
    if c = "" ∨ c = "." then cleanInto acc rest
    else if c = ".." then cleanInto acc.dropLast rest
    else cleanInto (acc ++ [c]) rest

/-- Semantics of `filepath.Join(base, name)` for an absolute, already-clean `base`. -/
def joinPath (base : List String) (name : String) : List String :=
  cleanInto base (splitSlash name)

inductive TarType where
  | dir
  | reg
  | other
  deriving DecidableEq, Repr

structure TarEntry where
  name : String
  typeflag : TarType
  deriving DecidableEq, Repr

/-- The destination paths `UploadAppCode`'s extraction loop writes to:
one per `TypeDir`/`TypeReg` entry, none rejected. -/
def extractWrites (base : List String) (entries : List TarEntry) :
    List (List String) :=
  entries.filterMap fun e =>
    match e.typeflag with
    | .other => none
    | _ => some (joinPath base e.name)

/-- Is `p` confined to the staging directory `base`? -/
def underBase (base p : List String) : Bool :=
  p.take base.length = base

/-- The staging directory `<root>/apps/web` for the default root
`/var/fluxd`. -/
def stagingWeb : List String := ["var", "fluxd", "apps", "web"]

/-! ## The reverse proxy's in-flight counter

Two generations of the proxy are in the source; both wire the counter
the same way.

`Proxy.ServeHTTP` (src/unnamed/part_003, lines 27-68): on a host hit,
`activeRequests` is incremented immediately; the inner
`httputil.ReverseProxy` decrements it in `ModifyResponse` and has no
`ErrorHandler`, so when the upstream round trip fails Go's default
handler answers 502 Bad Gateway and `ModifyResponse` never runs.  The
early exits after the increment (nil head: 404, inspect failure: 500)
do not decrement either.

`ContainerProxy` (src/server/proxy.go, lines 97-139 / its
`createProxy` twin): the `Director` increments `activeConns`,
`ModifyResponse` decrements, and the installed `ErrorHandler` answers
503 Service Unavailable without decrementing. -/

inductive Upstream where
  | response (status : Nat)
  | transportError
  deriving DecidableEq, Repr

structure ServeInput where
  hostFound : Bool
  headPresent : Bool
  inspectOk : Bool
  urlOk : Bool
  upstream : Upstream
  deriving DecidableEq, Repr

/-- Effect of one `Proxy.ServeHTTP` call on `activeRequests`, with the
HTTP status written to the client. -/
def serveStep (inFlight : Int) (i : ServeInput) : Int × Nat :=
  if !i.hostFound then (inFlight, 404)
  else
    let c := inFlight + 1
    if !i.headPresent then (c, 404)
    else if !i.inspectOk then (c, 500)
    else if !i.urlOk then (c, 500)
    else
      match i.upstream with
      | .response s => (c - 1, s)
      | .transportError => (c, 502)

/-- Effect of one request through a `ContainerProxy` route on
`activeConns` (`Director`, then either `ModifyResponse` or
`ErrorHandler`). -/
def hookStep (activeConns : Int) (u : Upstream) : Int × Nat :=
  let c := activeConns + 1
  match u with
  | .response s => (c - 1, s)
  | .transportError => (c, 503)

/-! ## `Container.Upgrade` (src/unnamed/part_006, lines 186-229)

During an upgrade the head container's volume is reused:
`CreateDockerContainer` is called with the head's existing volume (no
`VolumeCreate`), a new container row is inserted, and the volume row
is rebound with `UPDATE volumes SET container_id = ? WHERE id = ?`.
We model the catalog tables and the runtime calls the function
performs. -/

structure VolumeRow where
  id : Nat
  volumeID : String
  mountpoint : String
  containerID : String
  deriving DecidableEq, Repr

structure ContainerTableRow where
  id : Nat
  cid : String
  head : Bool
  deploymentID : Nat
  deriving DecidableEq, Repr

structure Catalog where
  containers : List ContainerTableRow
  volumes : List VolumeRow
  deriving DecidableEq, Repr

structure ContainerModel where
  id : Nat
  cid : String
  head : Bool
  deploymentID : Nat
  volumes : List VolumeRow
  deriving DecidableEq, Repr

inductive RtOp where
  | volumeCreate (vid : String)
  | containerCreate (cid : String)
  deriving DecidableEq, Repr

/-- Model of `Container.Upgrade` on container `c` (the head): error when
`c.Volumes` is nil; otherwise create the new runtime container mounted
on `c.Volumes[0]`, insert its `containers` row (inheriting `c.Head`
and `c.DeploymentID`), and rebind the volume row to the new runtime
container id.  `newCid` is the runtime id `ContainerCreate` returns
and `newRowId` the id the `containers` insert returns. -/
def containerUpgrade (cat : Catalog) (c : ContainerModel) (newCid : String)
    (newRowId : Nat) : Except String (ContainerModel × Catalog × List RtOp) :=
  match c.volumes with
  | [] => .error "no volumes found for container"
  | v :: _ =>
    let ops := [RtOp.containerCreate newCid]
    let newRow : ContainerTableRow := ⟨newRowId, newCid, c.head, c.deploymentID⟩
    let vols := cat.volumes.map fun r =>
      if r.id = v.id then { r with containerID := newCid } else r
    let newC : ContainerModel :=
      ⟨newRowId, newCid, c.head, c.deploymentID, [{ v with containerID := newCid }]⟩
    .ok (newC, ⟨cat.containers ++ [newRow], vols⟩, ops)

/-! ## The health gate, `WaitForDockerContainer`
(src/server/container.go, lines 136-161)

Once a second the runtime is inspected and, when `State.Running`,
`GET http://<ip>:<port>/` is issued; success is a `200 OK`, and a
30-second context deadline turns into the error
`container failed to become ready in time`.  `obs t` is the
observation in second `t`: whether the container is running, and the
status the probe would get (a failed `http.Get` is modelled as
status 0). -/

def waitLoop (obs : Nat → Bool × Nat) : Nat → Nat → Bool
  | 0, _ => false
  | fuel + 1, t =>
    if (obs t).1 = true ∧ (obs t).2 = 200 then true
    else waitLoop obs fuel (t + 1)

def waitForContainer (obs : Nat → Bool × Nat) : Bool := waitLoop obs 30 0

/-! ## `Deployment.Upgrade` (src/server/deployment.go, lines 413-499)
and `DeploymentProxy.GracefulShutdown` (src/unnamed/part_003,
lines 77-105)

We translate the pipeline to the sequence of externally visible
actions it performs, in program order: list the runtime containers
named `<name>-*` (the old generation snapshot), create and insert the
new head (`Head.Upgrade`, rebinding the head volume), start it, run
the health gate, update the deployment row, swap the deployment's
proxy (the router serves through `deployment.Proxy`, so this is the
cutover), transactionally delete the old generation's catalog rows,
commit, and hand the old containers to the background drain.  The
drain (`GracefulShutdown`) checks `activeRequests` once a second
until it is zero or the grace period's deadline passes, then
stops-and-removes (`RemoveDockerContainer`) every old container.
`env.counter t` is the in-flight count the drain would read at
second `t`. -/

inductive Ev where
  | listExisting
  | createContainer (cid : String)
  | insertContainerRow (cid : String)
  | rebindVolume (cid : String)
  | startContainer (cid : String)
  | healthGatePassed (cid : String)
  | updateDeploymentRow (url : String) (port : Nat)
  | proxySwap (newHead : String)
  | deleteContainerRow (cid : String)
  | txCommit
  | drainPoll (t : Nat)
  | stopContainer (cid : String)
  | removeContainer (cid : String)
  deriving DecidableEq, Repr

structure UpgradeEnv where
  oldGen : List String
  deplContainers : List String
  newCid : String
  url : String
  port : Nat
  headVolumesPresent : Bool
  startOk : Bool
  obs : Nat → Bool × Nat
  oldProxyPresent : Bool
  counter : Nat → Nat

/-- The `oldContainers` the pipeline collects: members of
`deployment.Containers` (after the new head is appended) whose runtime
id is in the old generation snapshot. -/
def oldContainersOf (env : UpgradeEnv) : List String :=
  (env.deplContainers ++ [env.newCid]).filter fun c => env.oldGen.contains c

/-- The drain's polling instants: one check per second, stopping at the
first zero counter, with at most `fuel` checks before the deadline. -/
def drainPollTimes (counter : Nat → Nat) : Nat → Nat → List Nat
  | 0, _ => []
  | fuel + 1, t =>
    t :: (if counter t = 0 then [] else drainPollTimes counter fuel (t + 1))

/-- Calls to `RemoveDockerContainer` (stop, then remove) on each old container. -/
def removeEvents (olds : List String) : List Ev :=
  (olds.map fun c => [Ev.stopContainer c, Ev.removeContainer c]).flatten

/-- Model of `DeploymentProxy.GracefulShutdown`.  Modelled from the spec: the
constructor `NewDeploymentProxy` that sets `gracePeriod` is absent
from src/ (only its callers are present); per the spec the grace
period is 30 seconds.  The loop body is from part_003: poll the
in-flight counter each second until it reaches zero or the deadline
passes, then stop and remove the old containers. -/
def drainEvents (counter : Nat → Nat) (grace : Nat) (olds : List String) :
    List Ev :=
  (drainPollTimes counter grace 0).map Ev.drainPoll ++ removeEvents olds

def upgradeSteps (env : UpgradeEnv) : List Ev × Except String Unit :=
  let t0 := [Ev.listExisting]
  if env.headVolumesPresent = false then
    (t0, .error "no volumes found for container")
  else
    let t1 := t0 ++ [Ev.createContainer env.newCid,
      Ev.insertContainerRow env.newCid, Ev.rebindVolume env.newCid,
      Ev.startContainer env.newCid]
    if env.startOk = false then (t1, .error "failed to start container")
    else if waitForContainer env.obs = false then
      (t1, .error "container failed to become ready in time")
    else
      let t2 := t1 ++ [Ev.healthGatePassed env.newCid,
        Ev.updateDeploymentRow env.url env.port, Ev.proxySwap env.newCid]
      let olds := oldContainersOf env
      let t3 := t2 ++ olds.map Ev.deleteContainerRow ++ [Ev.txCommit]
      if env.oldProxyPresent then
        (t3 ++ drainEvents env.counter 30 olds, .ok ())
      else
        (t3 ++ removeEvents olds, .ok ())

/-- The events of a clean upgrade before the drain hand-off. -/
def upgradePre (env : UpgradeEnv) : List Ev :=
  [Ev.listExisting, Ev.createContainer env.newCid,
   Ev.insertContainerRow env.newCid, Ev.rebindVolume env.newCid,
   Ev.startContainer env.newCid, Ev.healthGatePassed env.newCid,
   Ev.updateDeploymentRow env.url env.port, Ev.proxySwap env.newCid] ++
    (oldContainersOf env).map Ev.deleteContainerRow ++ [Ev.txCommit]

/-- The concrete clean-upgrade scenario used to witness C1: one old
container `"o"`, new head `"n"`, container ready at once, counter
already zero at the first drain check. -/
def envC1 : UpgradeEnv :=
  ⟨["o"], ["o"], "n", "web.test", 8080, true, true,
    (fun _ => (true, 200)), true, fun _ => 0⟩

/-! ## C3: health-gate failure during an upgrade -/

/-- The concrete failing scenario for C3: the new container `"n"`
never becomes ready within the 30-second deadline. -/
def envC3 : UpgradeEnv :=
  ⟨["o"], ["o"], "n", "web.test", 8080, true, true,
    (fun _ => (false, 500)), true, fun _ => 0⟩

/-! ## Theorems -/

theorem DockerStatus.str_ne_empty (s : DockerStatus) : s.str ≠ "" := by
  cases s <;> simp [DockerStatus.str]

theorem DockerStatus.str_inj {s t : DockerStatus} (h : s.str = t.str) : s = t := by
  cases s <;> cases t <;> first
    | rfl
    | (exfalso; revert h; simp [DockerStatus.str])

theorem statusFold_all_eq (s : DockerStatus) (cs : List DockerStatus)
    (h : ∀ x ∈ cs, x = s) : statusFold s.str cs = .ok s.str := by
  induction cs with
  | nil => rfl
  | cons t rest ih =>
    have ht : t = s := h t (List.mem_cons_self t rest)
    subst ht
    simp only [statusFold, ne_eq, not_true_eq_false, and_false, if_false]
    exact ih fun x hx => h x (List.mem_cons_of_mem t hx)

theorem statusFold_ok_head {r : String} {t : DockerStatus} {rest : List DockerStatus}
    (h : statusFold t.str rest = .ok r) : ∀ x ∈ rest, x = t := by
  induction rest generalizing t with
  | nil => intro x hx; exact absurd hx (List.not_mem_nil x)
  | cons u rest ih =>
    simp only [statusFold] at h
    by_cases hc : t.str ≠ "" ∧ t.str ≠ u.str
    · rw [if_pos hc] at h; exact absurd h (by simp)
    · rw [if_neg hc] at h
      push_neg at hc
      have hut : u = t := (DockerStatus.str_inj (hc (DockerStatus.str_ne_empty t)).symm)
      intro x hx
      rcases List.mem_cons.mp hx with hx | hx
      · rw [hx, hut]
      · rw [← hut]; exact ih h x hx

theorem statusFold_ok_or_error (acc : String) (cs : List DockerStatus) :
    (∃ r, statusFold acc cs = .ok r) ∨
      statusFold acc cs = .error "malformed deployment" := by
  induction cs generalizing acc with
  | nil => exact .inl ⟨acc, rfl⟩
  | cons t rest ih =>
    simp only [statusFold]
    by_cases hc : acc ≠ "" ∧ acc ≠ t.str
    · rw [if_pos hc]; exact .inr rfl
    · rw [if_neg hc]; exact ih t.str

/-- C7: for every deployment whose containers all report the same runtime
status, `Status` returns `"running"` if that status is `running`,
`"stopped"` if it is `exited`, and `"pending"` otherwise; if two
containers report different statuses, `Status` returns the
`malformed deployment` error. -/
theorem claim_C7 (cs : List DockerStatus) (s : DockerStatus) :
    ((∀ x ∈ cs, x = s) → cs ≠ [] →
      deploymentStatus (some cs) =
        .ok (if s = .running then "running"
             else if s = .exited then "stopped" else "pending")) ∧
    ((∃ a ∈ cs, ∃ b ∈ cs, a ≠ b) →
      deploymentStatus (some cs) = .error "malformed deployment") := by
  constructor
  · intro hall hne
    match cs, hall with
    | t :: rest, hall =>
      have ht : t = s := hall t (List.mem_cons_self t rest)
      subst ht
      have h1 : statusFold "" (t :: rest) = statusFold t.str rest := by
        simp [statusFold]
      have h2 : statusFold t.str rest = .ok t.str :=
        statusFold_all_eq t rest fun x hx => hall x (List.mem_cons_of_mem t hx)
      have hsw : statusSwitch t.str =
          (if t = .running then "running"
           else if t = .exited then "stopped" else "pending") := by
        cases t <;> simp [statusSwitch, DockerStatus.str]
      simp [deploymentStatus, h1, h2, Except.map, hsw]
  · rintro ⟨a, ha, b, hb, hab⟩
    match cs, ha, hb with
    | t :: rest, ha, hb =>
      have h1 : statusFold "" (t :: rest) = statusFold t.str rest := by
        simp [statusFold]
      rcases statusFold_ok_or_error t.str rest with ⟨r, hr⟩ | herr
      · exfalso
        have hall : ∀ x ∈ t :: rest, x = t := by
          intro x hx
          rcases List.mem_cons.mp hx with hx | hx
          · exact hx
          · exact statusFold_ok_head hr x hx
        exact hab ((hall a ha).trans (hall b hb).symm)
      · simp [deploymentStatus, h1, herr, Except.map]

/-- Witness for C7 at concrete inputs: two `running` containers aggregate
to `"running"`, and a `running`/`exited` mix is a malformed deployment. -/
theorem claim_C7_witness :
    deploymentStatus (some [DockerStatus.running, DockerStatus.running]) =
        .ok "running" ∧
      deploymentStatus (some [DockerStatus.running, DockerStatus.exited]) =
        .error "malformed deployment" := by
  constructor
  · have h := (claim_C7 [DockerStatus.running, DockerStatus.running]
      DockerStatus.running).1 (by decide) (by decide)
    simpa using h
  · exact (claim_C7 [DockerStatus.running, DockerStatus.exited]
      DockerStatus.running).2
      ⟨DockerStatus.running, by simp, DockerStatus.exited, by simp, by decide⟩

/-- C10: a deployment whose container list is non-nil but empty gets
status `"pending"` with no error (not `"stopped"`), while a nil
container list yields an error. -/
theorem claim_C10 :
    deploymentStatus (some []) = .ok "pending" ∧
      deploymentStatus none = .error "containers are nil" := by
  exact ⟨rfl, rfl⟩

/-- C6: a second deploy for a name already in flight is answered 409
with the lock state unchanged (so nothing is queued), and
`StartDeployment` errors exactly when the name is present; otherwise
it stores a cancel handle for the context derived from the parent and
returns that child context. -/
theorem claim_C6 (dt : DeploymentLock) (name : String) (parent : Ctx) :
    ((dt.deployed.lookup name).isSome →
      dt.startDeployment name parent =
          .error ("app " ++ name ++ " is already being deployed") ∧
        deployAdmit dt name parent = (.conflict 409, dt)) ∧
    ((dt.deployed.lookup name).isNone →
      dt.startDeployment name parent =
          .ok (childCtx parent, ⟨(name, ⟨childCtx parent⟩) :: dt.deployed⟩) ∧
        deployAdmit dt name parent =
          (.admitted (childCtx parent),
            ⟨(name, ⟨childCtx parent⟩) :: dt.deployed⟩)) := by
  constructor
  · intro hin
    have h : dt.startDeployment name parent =
        .error ("app " ++ name ++ " is already being deployed") := by
      simp [DeploymentLock.startDeployment, hin]
    exact ⟨h, by simp [deployAdmit, h]⟩
  · intro hout
    have h : dt.startDeployment name parent =
        .ok (childCtx parent, ⟨(name, ⟨childCtx parent⟩) :: dt.deployed⟩) := by
      simp [DeploymentLock.startDeployment, Option.isNone_iff_eq_none.mp hout]
    exact ⟨h, by simp [deployAdmit, h]⟩

/-- Witness for C6: with `"web"` in flight a second `"web"` deploy is
refused with the state unchanged; a fresh name is admitted and its
cancel handle recorded. -/
theorem claim_C6_witness :
    (deployAdmit ⟨[("web", ⟨⟨1⟩⟩)]⟩ "web" ⟨0⟩ =
        (.conflict 409, ⟨[("web", ⟨⟨1⟩⟩)]⟩)) ∧
      (deployAdmit ⟨[]⟩ "web" ⟨0⟩ =
        (.admitted ⟨1⟩, ⟨[("web", ⟨⟨1⟩⟩)]⟩)) := by
  refine ⟨((claim_C6 ⟨[("web", ⟨⟨1⟩⟩)]⟩ "web" ⟨0⟩).1 (by decide)).2, ?_⟩
  exact ((claim_C6 ⟨[]⟩ "web" ⟨0⟩).2 (by decide)).2

/-- C9: `AddApp` refuses (panics on) every app whose deployment has a
nil or empty container list or no head container, and stores the app
exactly when it has at least one container and a head. -/
theorem claim_C9 (reg : List (String × AppModel)) (name : String)
    (app : AppModel) :
    ((addApp reg name app).isSome ↔
      (∃ cs, app.containers = some cs ∧ cs ≠ []) ∧ app.head ≠ none) ∧
    (∀ reg', addApp reg name app = some reg' → reg' = (name, app) :: reg) := by
  constructor
  · unfold addApp
    by_cases hc : app.containers = none ∨ app.head = none ∨
        sliceLen app.containers = 0
    · rw [if_pos hc]
      simp only [Option.isSome_none, Bool.false_eq_true, false_iff]
      rintro ⟨⟨cs, hcs, hne⟩, hh⟩
      rcases hc with h | h | h
      · rw [hcs] at h; exact Option.noConfusion h
      · exact hh h
      · rw [hcs] at h; exact hne (List.length_eq_zero.mp h)
    · rw [if_neg hc]
      push_neg at hc
      obtain ⟨h1, h2, h3⟩ := hc
      simp only [Option.isSome_some, true_iff]
      match happ : app.containers with
      | none => exact absurd happ h1
      | some cs =>
        refine ⟨⟨cs, rfl, ?_⟩, h2⟩
        intro hnil
        rw [happ, hnil] at h3
        exact h3 rfl
  · intro reg' h
    unfold addApp at h
    by_cases hc : app.containers = none ∨ app.head = none ∨
        sliceLen app.containers = 0
    · rw [if_pos hc] at h; exact Option.noConfusion h
    · rw [if_neg hc] at h; exact (Option.some.injEq _ _ ▸ h).symm

/-- Witness for C9: an app with one container and a head is stored at
the front of the registry; an app with a nil container list is
refused. -/
theorem claim_C9_witness :
    (addApp [] "web" ⟨some [1], some 1⟩).isSome ∧
      addApp [] "api" ⟨none, none⟩ = none := by
  constructor
  · exact (claim_C9 [] "web" ⟨some [1], some 1⟩).1.mpr
      ⟨⟨[1], rfl, by decide⟩, by decide⟩
  · rfl

theorem scanHeads_some_of_one_head (cs : List ContainerRow) (c : ContainerRow)
    (h : 1 ≤ (cs.filter (·.head)).length) :
    scanHeads cs (some c) = .error "Several containers are marked as head" := by
  induction cs generalizing c with
  | nil => simp at h
  | cons t rest ih =>
    by_cases ht : t.head
    · simp [scanHeads, ht]
    · simp only [List.filter_cons, ht] at h
      simp only [scanHeads, ht, if_false]
      exact ih c (by simpa using h)

theorem scanHeads_two_heads (cs : List ContainerRow)
    (h : 2 ≤ (cs.filter (·.head)).length) :
    scanHeads cs none = .error "Several containers are marked as head" := by
  induction cs with
  | nil => simp at h
  | cons t rest ih =>
    by_cases ht : t.head
    · simp only [scanHeads, ht, if_true]
      apply scanHeads_some_of_one_head
      simp [List.filter_cons, ht] at h
      omega
    · simp only [List.filter_cons, ht] at h
      simp only [scanHeads, ht, if_false]
      exact ih (by simpa using h)

/-- C8: during startup reconstruction, a deployment with more than one
container marked head aborts the daemon fatally, and when the app is
loaded its proxy is registered with the router exactly when the
deployment's runtime status query returned `"running"` (on any other
status, or a status error, the router entry is not registered). -/
theorem claim_C8 (cs : List ContainerRow) (status : Except String String) :
    (2 ≤ (cs.filter (·.head)).length →
      initApp cs status = .fatal "Several containers are marked as head") ∧
    (∀ b, initApp cs status = .loaded b →
      (b = true ↔ status = .ok "running")) := by
  constructor
  · intro h
    simp [initApp, scanHeads_two_heads cs h]
  · intro b hb
    unfold initApp at hb
    match hscan : scanHeads cs none with
    | .error msg => rw [hscan] at hb; exact absurd hb (by simp)
    | .ok none => rw [hscan] at hb; exact absurd hb (by simp)
    | .ok (some hc) =>
      rw [hscan] at hb
      match status with
      | .error e =>
        simp only [InitOutcome.loaded.injEq] at hb
        subst hb
        simp
      | .ok s =>
        by_cases hs : s = "running"
        · subst hs
          simp only [ne_eq, not_true_eq_false, if_false,
            InitOutcome.loaded.injEq] at hb
          subst hb
          simp
        · simp only [ne_eq, hs, not_false_eq_true, if_true,
            InitOutcome.loaded.injEq] at hb
          subst hb
          simp [hs]

/-- Witness for C8: two head rows abort fatally; one head row with a
`running` status registers the router entry, with an `exited` status it
does not. -/
theorem claim_C8_witness :
    initApp [⟨1, "a", true⟩, ⟨2, "b", true⟩] (.ok "running") =
        .fatal "Several containers are marked as head" ∧
      (true = true ↔ (Except.ok "running" : Except String String) = .ok "running") ∧
      (false = true ↔ (Except.ok "exited" : Except String String) = .ok "running") := by
  refine ⟨(claim_C8 [⟨1, "a", true⟩, ⟨2, "b", true⟩] (.ok "running")).1 (by decide),
    (claim_C8 [⟨1, "a", true⟩] (.ok "running")).2 true rfl,
    (claim_C8 [⟨1, "a", true⟩] (.ok "exited")).2 false rfl⟩

/-- C5 fails on the code: `UploadAppCode` rejects nothing.  A tar entry
named `../evil` is extracted to `<root>/apps/evil`, outside the
staging directory `<root>/apps/web/` (an absolute entry `/etc/passwd`
is not rejected either, though lexical joining happens to keep it
inside).  This theorem evaluates the extraction at the failing
input. -/
theorem claim_C5 :
    extractWrites stagingWeb [⟨"../evil", .reg⟩] =
        [["var", "fluxd", "apps", "evil"]] ∧
      underBase stagingWeb ["var", "fluxd", "apps", "evil"] = false ∧
      extractWrites stagingWeb [⟨"/etc/passwd", .reg⟩] =
        [["var", "fluxd", "apps", "web", "etc", "passwd"]] := by
  refine ⟨by decide, by decide, by decide⟩

/-- C2 fails on the code: the counter is decremented only in
`ModifyResponse`.  A request whose upstream transport fails leaves the
counter at its pre-request value plus one in both proxy generations
(only the normal-response path restores it), so the counter does not
return to its pre-request value for every completed request. -/
theorem claim_C2 :
    serveStep 0 ⟨true, true, true, true, .transportError⟩ = (1, 502) ∧
      hookStep 0 .transportError = (1, 503) ∧
      (∀ c s, serveStep c ⟨true, true, true, true, .response s⟩ = (c, s)) ∧
      (1 : Int) ≠ 0 := by
  refine ⟨rfl, rfl, fun c s => ?_, by decide⟩
  simp [serveStep]

/-- C4: when a new container is created during an upgrade, the head's
volume is reused by rebinding the volume row's `container_id` to the
new container: the runtime sees no `VolumeCreate`, the volume table
keeps exactly its old rows (same ids, same count, so each row still
references exactly one container id and distinct rows stay distinct),
the head's volume row now references the new container id, and every
other volume row is unchanged. -/
theorem claim_C4 (cat : Catalog) (c : ContainerModel) (newCid : String)
    (newRowId : Nat) (v : VolumeRow) (hv : c.volumes = [v]) :
    ∃ newC cat' ops,
      containerUpgrade cat c newCid newRowId = .ok (newC, cat', ops) ∧
      (∀ op ∈ ops, ∀ vid, op ≠ RtOp.volumeCreate vid) ∧
      cat'.volumes.map (·.id) = cat.volumes.map (·.id) ∧
      cat'.volumes.length = cat.volumes.length ∧
      (∀ r ∈ cat.volumes, r.id = v.id →
        { r with containerID := newCid } ∈ cat'.volumes) ∧
      (∀ r ∈ cat.volumes, r.id ≠ v.id → r ∈ cat'.volumes) ∧
      ((cat.volumes.map (·.id)).Nodup → (cat'.volumes.map (·.id)).Nodup) ∧
      cat'.containers = cat.containers ++ [⟨newRowId, newCid, c.head, c.deploymentID⟩] ∧
      newC.cid = newCid ∧ newC.head = c.head := by
  rw [show containerUpgrade cat c newCid newRowId =
      .ok (⟨newRowId, newCid, c.head, c.deploymentID,
             [{ v with containerID := newCid }]⟩,
           ⟨cat.containers ++ [⟨newRowId, newCid, c.head, c.deploymentID⟩],
            cat.volumes.map fun r =>
              if r.id = v.id then { r with containerID := newCid } else r⟩,
           [RtOp.containerCreate newCid]) from by
    rw [containerUpgrade, hv]]
  refine ⟨_, _, _, rfl, ?_, ?_, ?_, ?_, ?_, ?_, rfl, rfl, rfl⟩
  · intro op hop vid
    simp only [List.mem_singleton] at hop
    subst hop
    exact fun h => RtOp.noConfusion h
  · show (cat.volumes.map fun r =>
        if r.id = v.id then { r with containerID := newCid } else r).map (·.id) =
      cat.volumes.map (·.id)
    rw [List.map_map]
    apply List.map_congr_left
    intro r _
    by_cases h : r.id = v.id <;> simp [h]
  · simp
  · intro r hr hid
    have hm := List.mem_map_of_mem
      (fun r : VolumeRow =>
        if r.id = v.id then { r with containerID := newCid } else r) hr
    have hb : (fun r : VolumeRow =>
        if r.id = v.id then { r with containerID := newCid } else r) r =
        { r with containerID := newCid } := by
      simp only [if_pos hid]
    rw [hb] at hm
    exact hm
  · intro r hr hid
    have hm := List.mem_map_of_mem
      (fun r : VolumeRow =>
        if r.id = v.id then { r with containerID := newCid } else r) hr
    have hb : (fun r : VolumeRow =>
        if r.id = v.id then { r with containerID := newCid } else r) r = r := by
      simp only [if_neg hid]
    rw [hb] at hm
    exact hm
  · intro h
    have heq : (cat.volumes.map fun r =>
        if r.id = v.id then { r with containerID := newCid } else r).map (·.id) =
      cat.volumes.map (·.id) := by
      rw [List.map_map]
      apply List.map_congr_left
      intro r _
      by_cases hc : r.id = v.id <;> simp [hc]
    rw [heq]
    exact h

/-- Witness for C4 at a concrete catalog: one head volume row `id = 5`
owned by `"oldC"` is rebound to `"newC"`. -/
theorem claim_C4_witness :
    ∃ newC cat' ops,
      containerUpgrade
          ⟨[⟨1, "oldC", true, 9⟩], [⟨5, "volA", "/workspace", "oldC"⟩]⟩
          ⟨1, "oldC", true, 9, [⟨5, "volA", "/workspace", "oldC"⟩]⟩
          "newC" 2 = .ok (newC, cat', ops) ∧
      (∀ op ∈ ops, ∀ vid, op ≠ RtOp.volumeCreate vid) ∧
      cat'.volumes.map (·.id) =
        ([⟨5, "volA", "/workspace", "oldC"⟩] : List VolumeRow).map (·.id) ∧
      cat'.volumes.length =
        ([⟨5, "volA", "/workspace", "oldC"⟩] : List VolumeRow).length ∧
      (∀ r ∈ ([⟨5, "volA", "/workspace", "oldC"⟩] : List VolumeRow),
        r.id = 5 → { r with containerID := "newC" } ∈ cat'.volumes) ∧
      (∀ r ∈ ([⟨5, "volA", "/workspace", "oldC"⟩] : List VolumeRow),
        r.id ≠ 5 → r ∈ cat'.volumes) ∧
      ((([⟨5, "volA", "/workspace", "oldC"⟩] : List VolumeRow).map (·.id)).Nodup →
        (cat'.volumes.map (·.id)).Nodup) ∧
      cat'.containers = [⟨1, "oldC", true, 9⟩] ++ [⟨2, "newC", true, 9⟩] ∧
      newC.cid = "newC" ∧ newC.head = true :=
  claim_C4 ⟨[⟨1, "oldC", true, 9⟩], [⟨5, "volA", "/workspace", "oldC"⟩]⟩
    ⟨1, "oldC", true, 9, [⟨5, "volA", "/workspace", "oldC"⟩]⟩
    "newC" 2 ⟨5, "volA", "/workspace", "oldC"⟩ rfl

theorem waitLoop_false_iff (obs : Nat → Bool × Nat) (fuel t : Nat) :
    waitLoop obs fuel t = false ↔
      ∀ k < fuel, ¬((obs (t + k)).1 = true ∧ (obs (t + k)).2 = 200) := by
  induction fuel generalizing t with
  | zero => simp [waitLoop]
  | succ fuel ih =>
    by_cases hr : (obs t).1 = true ∧ (obs t).2 = 200
    · simp only [waitLoop, if_pos hr]
      constructor
      · intro h; exact absurd h (by simp)
      · intro h; exact absurd (by simpa using hr) (h 0 (Nat.succ_pos fuel))
    · simp only [waitLoop, if_neg hr]
      rw [ih (t + 1)]
      constructor
      · intro h k hk
        match k with
        | 0 => simpa using hr
        | k + 1 =>
          have := h k (by omega)
          simpa [Nat.add_assoc, Nat.add_comm 1 k] using this
      · intro h k hk
        have := h (k + 1) (by omega)
        simpa [Nat.add_assoc, Nat.add_comm 1 k] using this

theorem drainPollTimes_spec (counter : Nat → Nat) (fuel t : Nat)
    (hf : 1 ≤ fuel) :
    ∃ k, 1 ≤ k ∧ k ≤ fuel ∧
      drainPollTimes counter fuel t = (List.range k).map (t + ·) ∧
      (∀ j, j + 1 < k → counter (t + j) ≠ 0) ∧
      (k < fuel → counter (t + (k - 1)) = 0) := by
  induction fuel generalizing t with
  | zero => omega
  | succ fuel ih =>
    by_cases hz : counter t = 0
    · refine ⟨1, le_refl 1, by omega, ?_, by omega, fun _ => by simpa using hz⟩
      have hstep : drainPollTimes counter (fuel + 1) t =
          t :: (if counter t = 0 then []
                else drainPollTimes counter fuel (t + 1)) := rfl
      rw [hstep, if_pos hz]
      simp [List.range_succ]
    · match fuel, ih with
      | 0, _ =>
        refine ⟨1, le_refl 1, le_refl 1, ?_, by omega, by omega⟩
        have hstep : drainPollTimes counter 1 t =
            t :: (if counter t = 0 then [] else drainPollTimes counter 0 (t + 1)) :=
          rfl
        rw [hstep, if_neg hz]
        simp [drainPollTimes, List.range_succ]
      | fuel + 1, ih =>
        obtain ⟨k, hk1, hk2, hlist, hnz, hstop⟩ := ih (t + 1) (by omega)
        refine ⟨k + 1, by omega, by omega, ?_, ?_, ?_⟩
        · have hstep : drainPollTimes counter (fuel + 1 + 1) t =
              t :: (if counter t = 0 then []
                    else drainPollTimes counter (fuel + 1) (t + 1)) := rfl
          have hmap : List.map (fun x => t + x) (List.range (k + 1)) =
              t :: List.map (fun x => t + 1 + x) (List.range k) := by
            rw [List.range_succ_eq_map, List.map_cons, List.map_map]
            refine congrArg₂ List.cons (by omega) ?_
            exact List.map_congr_left fun x _ => by simp [Function.comp]; omega
          rw [hstep, if_neg hz, hlist, hmap]
        · intro j hj
          match j with
          | 0 => simpa using hz
          | j + 1 =>
            have := hnz j (by omega)
            have harg : t + 1 + j = t + (j + 1) := by omega
            rwa [harg] at this
        · intro hlt
          have := hstop (by omega)
          have harg : t + 1 + (k - 1) = t + (k + 1 - 1) := by omega
          rwa [harg] at this

/-- C1: on a clean upgrade commit (health gate passed, old proxy
bound), the pipeline performs no stop or remove of any old-generation
container before the drain hand-off, and that hand-off segment comes
after both the passed health gate and the proxy swap (the router
repoint); the old containers are removed only inside the background
graceful drain, which checks the in-flight counter once a second from
second 0, continuing exactly while the counter is nonzero and for at
most 30 checks within the 30-second grace period, stopping early only
because the counter reached zero. -/
theorem claim_C1 (env : UpgradeEnv)
    (h1 : env.headVolumesPresent = true) (h2 : env.startOk = true)
    (h3 : waitForContainer env.obs = true) (h4 : env.oldProxyPresent = true) :
    (upgradeSteps env).2 = .ok () ∧
    (upgradeSteps env).1 =
      upgradePre env ++ drainEvents env.counter 30 (oldContainersOf env) ∧
    (∀ e ∈ upgradePre env, ∀ c ∈ env.oldGen,
      e ≠ Ev.stopContainer c ∧ e ≠ Ev.removeContainer c) ∧
    Ev.healthGatePassed env.newCid ∈ upgradePre env ∧
    Ev.proxySwap env.newCid ∈ upgradePre env ∧
    drainEvents env.counter 30 (oldContainersOf env) =
      (drainPollTimes env.counter 30 0).map Ev.drainPoll ++
        removeEvents (oldContainersOf env) ∧
    (∃ k, 1 ≤ k ∧ k ≤ 30 ∧
      drainPollTimes env.counter 30 0 = List.range k ∧
      (∀ j, j + 1 < k → env.counter j ≠ 0) ∧
      (k < 30 → env.counter (k - 1) = 0)) := by
  refine ⟨?_, ?_, ?_, ?_, ?_, rfl, ?_⟩
  · simp [upgradeSteps, h1, h2, h3, h4]
  · simp [upgradeSteps, upgradePre, h1, h2, h3, h4, drainEvents,
      List.append_assoc]
  · intro e he c _
    constructor
    · intro hcontra
      subst hcontra
      simp [upgradePre, List.mem_append, List.mem_map] at he
    · intro hcontra
      subst hcontra
      simp [upgradePre, List.mem_append, List.mem_map] at he
  · simp [upgradePre]
  · simp [upgradePre]
  · obtain ⟨k, hk1, hk2, hlist, hnz, hstop⟩ :=
      drainPollTimes_spec env.counter 30 0 (by omega)
    refine ⟨k, hk1, hk2, ?_, fun j hj => by simpa using hnz j hj,
      fun hlt => by simpa using hstop hlt⟩
    have hid : (List.range k).map (0 + ·) = (List.range k).map id :=
      List.map_congr_left fun x _ => by simp
    rw [hlist, hid, List.map_id]

/-- Witness for C1: the pipeline commits and produces exactly this
event sequence, with the drain (one poll at second 0, then
stop/remove of `"o"`) strictly after the health gate and the proxy
swap. -/
theorem claim_C1_witness :
    (upgradeSteps envC1).2 = .ok () ∧
      (upgradeSteps envC1).1 =
        [Ev.listExisting, Ev.createContainer "n", Ev.insertContainerRow "n",
         Ev.rebindVolume "n", Ev.startContainer "n", Ev.healthGatePassed "n",
         Ev.updateDeploymentRow "web.test" 8080, Ev.proxySwap "n",
         Ev.deleteContainerRow "o", Ev.txCommit, Ev.drainPoll 0,
         Ev.stopContainer "o", Ev.removeContainer "o"] := by
  refine ⟨(claim_C1 envC1 rfl rfl (by decide) rfl).1, by decide⟩

/-- C3 is corrected: when the health gate fails the pipeline fails and
the old head stays live and routable, but no rollback happens — the
new container's catalog row is not deleted and the new runtime
container is not removed (no delete, stop, remove, or proxy-swap
action occurs at all after the failed gate). -/
theorem claim_C3_amended (env : UpgradeEnv)
    (h1 : env.headVolumesPresent = true) (h2 : env.startOk = true)
    (hfail : ∀ t < 30, ¬((env.obs t).1 = true ∧ (env.obs t).2 = 200)) :
    (upgradeSteps env).2 = .error "container failed to become ready in time" ∧
    (upgradeSteps env).1 =
      [Ev.listExisting, Ev.createContainer env.newCid,
       Ev.insertContainerRow env.newCid, Ev.rebindVolume env.newCid,
       Ev.startContainer env.newCid] ∧
    Ev.insertContainerRow env.newCid ∈ (upgradeSteps env).1 ∧
    (∀ c, Ev.deleteContainerRow c ∉ (upgradeSteps env).1) ∧
    (∀ c, Ev.stopContainer c ∉ (upgradeSteps env).1) ∧
    (∀ c, Ev.removeContainer c ∉ (upgradeSteps env).1) ∧
    (∀ c, Ev.proxySwap c ∉ (upgradeSteps env).1) := by
  have hw : waitForContainer env.obs = false := by
    rw [waitForContainer, waitLoop_false_iff]
    intro k hk
    simpa using hfail k hk
  have htr : (upgradeSteps env).1 =
      [Ev.listExisting, Ev.createContainer env.newCid,
       Ev.insertContainerRow env.newCid, Ev.rebindVolume env.newCid,
       Ev.startContainer env.newCid] := by
    simp [upgradeSteps, h1, h2, hw]
  refine ⟨by simp [upgradeSteps, h1, h2, hw], htr, ?_, ?_, ?_, ?_, ?_⟩ <;>
    simp [htr]

/-- Counterexample for C3 as stated: at this input the health gate
fails and the pipeline errors, yet the new container's catalog row is
not deleted and the new runtime container is not removed — contrary
to the claimed rollback. -/
theorem claim_C3_counterexample :
    (upgradeSteps envC3).2 = .error "container failed to become ready in time" ∧
      Ev.insertContainerRow "n" ∈ (upgradeSteps envC3).1 ∧
      Ev.deleteContainerRow "n" ∉ (upgradeSteps envC3).1 ∧
      Ev.removeContainer "n" ∉ (upgradeSteps envC3).1 := by
  decide

/-- Witness for the amended C3 at the concrete failing scenario. -/
theorem claim_C3_witness :
    (upgradeSteps envC3).2 = .error "container failed to become ready in time" ∧
      (upgradeSteps envC3).1 =
        [Ev.listExisting, Ev.createContainer "n", Ev.insertContainerRow "n",
         Ev.rebindVolume "n", Ev.startContainer "n"] := by
  have h := claim_C3_amended envC3 rfl rfl (by decide)
  exact ⟨h.1, h.2.1⟩

end Flux
